import Mathlib

/-!
Verification of the polarsen job-claiming and status-tracking subsystem.

The Python source is shallow-embedded: jsonb metadata blobs become
association lists of string keys to JSON values, the SQL UPDATE statements of
`polarsen/db/chat.py` and `polarsen/db/ai.py` become pure functions on rows,
the `FOR UPDATE SKIP LOCKED` claim queries become a lock-acquiring selection
over an explicit lock set, and the worker loops of `polarsen/cli/listener.py`
become trace-producing functions over per-item processing outcomes.
-/

namespace Polarsen

/-- A JSON value stored in a jsonb metadata blob: a string, a timestamp
(written by SQL `now()`, modelled as an integer instant), or JSON null. -/
inductive JVal
  | str (s : String)
  | time (t : Int)
  | null
  deriving DecidableEq

/-- A jsonb object: an association list from keys to values.  Lookup takes
the first binding of a key; the operations below keep keys unique. -/
abbrev Jsonb := List (String × JVal)

/-- Key lookup, the jsonb `->` operator. -/
def Jsonb.get : Jsonb → String → Option JVal
  | [], _ => none
  | p :: rest, k => if p.1 == k then some p.2 else Jsonb.get rest k

/-- The jsonb `- key` operator: delete a key. -/
def Jsonb.del : Jsonb → String → Jsonb
  | [], _ => []
  | p :: rest, k => if p.1 == k then Jsonb.del rest k else p :: Jsonb.del rest k

/-- Insert a key, overwriting any previous binding. -/
def Jsonb.set (m : Jsonb) (k : String) (v : JVal) : Jsonb :=
  Jsonb.del m k ++ [(k, v)]

/-- The jsonb `||` operator: right-hand bindings win. -/
def Jsonb.concat (m obj : Jsonb) : Jsonb :=
  obj.foldl (fun acc p => Jsonb.set acc p.1 p.2) m

/-- SQL `COALESCE(meta, '\x7b\x7d')`: a NULL blob becomes the empty object. -/
def coalesceMeta : Option Jsonb → Jsonb
  | none => []
  | some m => m

/-- The jsonb `->> key` operator on a possibly NULL blob: SQL NULL when the
blob is NULL, the key is absent, or the value is JSON null. -/
def metaText (m : Option Jsonb) (k : String) : Option String :=
  match m with
  | none => none
  | some mm =>
    match Jsonb.get mm k with
    | some (JVal.str s) => some s
    | some (JVal.time t) => some (toString t)
    | some JVal.null => none
    | none => none

/-- Lookup through a possibly NULL blob. -/
def optGet (m : Option Jsonb) (k : String) : Option JVal :=
  m.bind (fun mm => Jsonb.get mm k)

/-- A row of `general.chats` as seen by the claiming and status logic:
its id, its `meta` jsonb column (nullable), and the owning user api key for
the segmentation source (`u.api_keys ->> $2` from the claim query join). -/
structure ChatRow where
  id : Nat
  meta : Option Jsonb
  apiKey : Option String
  deriving DecidableEq

/-- A row of `ai.message_groups`: its id, its `meta` jsonb column, and
whether a row of `ai.mistral_group_embeddings` references it
(`cge.id IS NULL` in the claim query). -/
structure GroupRow where
  id : Nat
  meta : Option Jsonb
  hasEmbedding : Bool
  deriving DecidableEq

/-- A row of `general.chat_uploads`: id, `processed_at` (nullable) and
`created_at`, the columns used by `PENDING_CHAT_UPLOADS_QUERY`. -/
structure UploadRow where
  id : Nat
  processedAt : Option Int
  createdAt : Int
  deriving DecidableEq

/-- An SQL statement execution can fail; the only failure modelled here is a
malformed statement rejected by the server parser. -/
inductive SqlError
  | malformedStatement
  deriving DecidableEq

namespace DbChat

/-- Meta update of `DbChat.set_is_processing` (db/chat.py lines 80-92):
`meta = COALESCE(meta, empty) || jsonb_build_object(processing_started_at
now(), status processing)`. -/
def setIsProcessingMeta (now : Int) (m : Option Jsonb) : Jsonb :=
  Jsonb.concat (coalesceMeta m)
    [("processing_started_at", JVal.time now), ("status", JVal.str "processing")]

/-- Meta update of `DbChat.set_processing_error` (db/chat.py lines 94-108):
adds `processing_error_at`, `status = error` and `error_message`. -/
def setProcessingErrorMeta (now : Int) (msg : Option String) (m : Option Jsonb) : Jsonb :=
  Jsonb.concat (coalesceMeta m)
    [("processing_error_at", JVal.time now), ("status", JVal.str "error"),
     ("error_message", match msg with | some s => JVal.str s | none => JVal.null)]

/-- Meta update of `DbChat.set_processing_done` (db/chat.py lines 110-122):
adds `processing_done_at` and `status = done`, then deletes the keys
`processing_error` and `error_message` (the source deletes the key
`processing_error`, not `processing_error_at`). -/
def setProcessingDoneMeta (now : Int) (m : Option Jsonb) : Jsonb :=
  Jsonb.del
    (Jsonb.del
      (Jsonb.concat (coalesceMeta m)
        [("processing_done_at", JVal.time now), ("status", JVal.str "done")])
      "processing_error")
    "error_message"

/-- `UPDATE general.chats SET meta = ... WHERE id = ANY($1)`. -/
def updateMetaWhereIdAny (ids : List Nat) (f : Option Jsonb → Jsonb)
    (table : List ChatRow) : List ChatRow :=
  table.map (fun r => if ids.contains r.id then { r with meta := some (f r.meta) } else r)

/-- `DbChat.set_is_processing(conn, chat_ids)` over a chats table. -/
def set_is_processing (now : Int) (chatIds : List Nat) (table : List ChatRow) :
    List ChatRow :=
  updateMetaWhereIdAny chatIds (setIsProcessingMeta now) table

/-- `DbChat.set_processing_error(conn, chat_ids, message)` over a chats table. -/
def set_processing_error (now : Int) (chatIds : List Nat) (msg : Option String)
    (table : List ChatRow) : List ChatRow :=
  updateMetaWhereIdAny chatIds (setProcessingErrorMeta now msg) table

/-- `DbChat.set_processing_done(conn, chat_ids)` over a chats table. -/
def set_processing_done (now : Int) (chatIds : List Nat) (table : List ChatRow) :
    List ChatRow :=
  updateMetaWhereIdAny chatIds (setProcessingDoneMeta now) table

/-- `DbChat.reset_processing(conn, chat_ids)` (db/chat.py lines 124-133).
The statement text reads `UPDATE general.chats set meta = meta - ... where
id = any($1)wo`: the trailing `wo` makes the statement malformed, so every
execution is rejected by the SQL parser before touching any row, whatever
the id list holds. -/
def reset_processing (_chatIds : List Nat) (_table : List ChatRow) :
    Except SqlError (List ChatRow) :=
  Except.error SqlError.malformedStatement

end DbChat

namespace MessageGroup

/-- Meta update of `MessageGroup.set_is_processing` (db/ai.py lines 90-103). -/
def setIsProcessingMeta (now : Int) (m : Option Jsonb) : Jsonb :=
  Jsonb.concat (coalesceMeta m)
    [("embeddings_started_at", JVal.time now), ("embeddings_status", JVal.str "processing")]

/-- Meta update of `MessageGroup.set_processing_error` (db/ai.py lines 105-120). -/
def setProcessingErrorMeta (now : Int) (msg : Option String) (m : Option Jsonb) : Jsonb :=
  Jsonb.concat (coalesceMeta m)
    [("embeddings_error_at", JVal.time now), ("embeddings_status", JVal.str "error"),
     ("embeddings_error_message", match msg with | some s => JVal.str s | none => JVal.null)]

/-- Meta update of `MessageGroup.set_processing_done` (db/ai.py lines
122-135): adds `embeddings_done_at` and `embeddings_status = done`, then
deletes `embeddings_error_at` and `embeddings_error_message`. -/
def setProcessingDoneMeta (now : Int) (m : Option Jsonb) : Jsonb :=
  Jsonb.del
    (Jsonb.del
      (Jsonb.concat (coalesceMeta m)
        [("embeddings_done_at", JVal.time now), ("embeddings_status", JVal.str "done")])
      "embeddings_error_at")
    "embeddings_error_message"

/-- Row update of `MessageGroup.reset_processing` (db/ai.py lines 137-147):
`meta = meta - embeddings_status` with no COALESCE, so a NULL blob stays
NULL. -/
def resetRow (ids : List Nat) (r : GroupRow) : GroupRow :=
  if ids.contains r.id then
    { r with meta := r.meta.map (fun mm => Jsonb.del mm "embeddings_status") }
  else r

/-- `UPDATE ai.message_groups SET meta = ... WHERE id = ANY($1)`. -/
def updateMetaWhereIdAny (ids : List Nat) (f : Option Jsonb → Jsonb)
    (table : List GroupRow) : List GroupRow :=
  table.map (fun r => if ids.contains r.id then { r with meta := some (f r.meta) } else r)

/-- `MessageGroup.set_is_processing(conn, group_ids)` over a groups table. -/
def set_is_processing (now : Int) (groupIds : List Nat) (table : List GroupRow) :
    List GroupRow :=
  updateMetaWhereIdAny groupIds (setIsProcessingMeta now) table

/-- `MessageGroup.set_processing_error(conn, group_ids, message)`. -/
def set_processing_error (now : Int) (groupIds : List Nat) (msg : Option String)
    (table : List GroupRow) : List GroupRow :=
  updateMetaWhereIdAny groupIds (setProcessingErrorMeta now msg) table

/-- `MessageGroup.set_processing_done(conn, group_ids)`. -/
def set_processing_done (now : Int) (groupIds : List Nat) (table : List GroupRow) :
    List GroupRow :=
  updateMetaWhereIdAny groupIds (setProcessingDoneMeta now) table

/-- `MessageGroup.reset_processing(conn, group_ids)` (db/ai.py lines
137-147); its SQL is well formed and the statement always succeeds. -/
def reset_processing (groupIds : List Nat) (table : List GroupRow) :
    Except SqlError (List GroupRow) :=
  Except.ok (table.map (resetRow groupIds))

end MessageGroup

/-- A Python exception as seen by the retry wrapper.  All constructors model
subclasses of `Exception`; `tooManyRequests` carries the server-suggested
retry delay of `TooManyRequestsError`. -/
inductive PyExc
  | tooManyRequests (retryDelay : ℚ)
  | quotaExceeded
  | valueError
  deriving DecidableEq

/-- Outcome of one call of the wrapped function. -/
inductive CallResult
  | success
  | raised (e : PyExc)
  deriving DecidableEq

/-- What the wrapper itself does in the end. -/
inductive RetryOutcome
  | returned
  | returnedNone
  | raised (e : PyExc)
  deriving DecidableEq

/-- Observable behaviour of one wrapper run: how many times the wrapped
function was called, the successive sleep durations, and the outcome. -/
structure RetryResult where
  calls : Nat
  sleeps : List ℚ
  outcome : RetryOutcome
  deriving DecidableEq

/-- The attempt loop of `retry_async` in common/models/utils.py (lines
156-207).  `fuel` is the number of attempts still allowed (the Python loop
runs `attempt` from 1 to `max_attempts`, so `fuel = 1` means the current
attempt is the last one and a retryable failure is re-raised).  `script`
gives the wrapped call outcome per 1-based attempt number; `rand` models
`random.random()` per attempt.  A `TooManyRequestsError` sleeps its own
`retry_delay` and leaves `current_delay` alone; any other retryable
exception sleeps `current_delay` and then multiplies `current_delay` by
`backoff_factor` twice - once at line 188 and once more after the sleep at
lines 196-197, where `_backoff_factor` is not None. -/
def retryGoModels (backoff : ℚ) (jitter : Bool) (rand : Nat → ℚ)
    (retryable : PyExc → Bool) (script : Nat → CallResult) :
    Nat → Nat → ℚ → RetryResult
  | 0, _, _ => ⟨0, [], RetryOutcome.returnedNone⟩
  | fuel + 1, attempt, currentDelay =>
    match script attempt with
    | CallResult.success => ⟨1, [], RetryOutcome.returned⟩
    | CallResult.raised e =>
      if retryable e then
        if fuel = 0 then ⟨1, [], RetryOutcome.raised e⟩
        else
          match e with
          | PyExc.tooManyRequests d =>
            let actualDelay := d * (if jitter then 1/2 + rand attempt else 1)
            let rest := retryGoModels backoff jitter rand retryable script
                fuel (attempt + 1) currentDelay
            ⟨rest.calls + 1, actualDelay :: rest.sleeps, rest.outcome⟩
          | _ =>
            let actualDelay := currentDelay * (if jitter then 1/2 + rand attempt else 1)
            let rest := retryGoModels backoff jitter rand retryable script
                fuel (attempt + 1) (currentDelay * backoff * backoff)
            ⟨rest.calls + 1, actualDelay :: rest.sleeps, rest.outcome⟩
      else ⟨1, [], RetryOutcome.raised e⟩

/-- `retry_async(max_attempts, delay, backoff_factor, jitter, exceptions)`
of common/models/utils.py applied to a wrapped call, with
`reraise_on_final_attempt` left at its default True. -/
def retry_async_models (maxAttempts : Nat) (delay backoff : ℚ) (jitter : Bool)
    (rand : Nat → ℚ) (retryable : PyExc → Bool) (script : Nat → CallResult) :
    RetryResult :=
  retryGoModels backoff jitter rand retryable script maxAttempts 1 delay

/-- The attempt loop of the second `retry_async` copy, in
ai/conversations/utils.py (lines 11-80): no rate-limit special case, and
`current_delay` is multiplied by `backoff_factor` exactly once per retry,
after the sleep (line 68). -/
def retryGoConversations (backoff : ℚ) (jitter : Bool) (rand : Nat → ℚ)
    (retryable : PyExc → Bool) (script : Nat → CallResult) :
    Nat → Nat → ℚ → RetryResult
  | 0, _, _ => ⟨0, [], RetryOutcome.returnedNone⟩
  | fuel + 1, attempt, currentDelay =>
    match script attempt with
    | CallResult.success => ⟨1, [], RetryOutcome.returned⟩
    | CallResult.raised e =>
      if retryable e then
        if fuel = 0 then ⟨1, [], RetryOutcome.raised e⟩
        else
          let actualDelay := currentDelay * (if jitter then 1/2 + rand attempt else 1)
          let rest := retryGoConversations backoff jitter rand retryable script
              fuel (attempt + 1) (currentDelay * backoff)
          ⟨rest.calls + 1, actualDelay :: rest.sleeps, rest.outcome⟩
      else ⟨1, [], RetryOutcome.raised e⟩

/-- `retry_async` of ai/conversations/utils.py applied to a wrapped call. -/
def retry_async_conversations (maxAttempts : Nat) (delay backoff : ℚ) (jitter : Bool)
    (rand : Nat → ℚ) (retryable : PyExc → Bool) (script : Nat → CallResult) :
    RetryResult :=
  retryGoConversations backoff jitter rand retryable script maxAttempts 1 delay

/-- `fetch_completion` in common/models/gemini/fetch.py line 54 is decorated
`@retry_async()` with every argument at its default: max_attempts 3, delay
1.0, backoff_factor 2.0, jitter True, and exceptions equal to the tuple
holding only `Exception` - so every modelled exception, `QuotaExceededError`
included, is caught by the retryable branch. -/
def gemini_fetch_completion_retry (rand : Nat → ℚ) (script : Nat → CallResult) :
    RetryResult :=
  retry_async_models 3 1 2 true rand (fun _ => true) script

/-- A Python exception at worker-loop level: either an ordinary Exception
(caught by `except Exception`), or `asyncio.CancelledError`, which since
Python 3.8 subclasses BaseException only and passes through
`except Exception` handlers. -/
inductive PyBaseExc
  | exc (msg : String)
  | cancelled
  deriving DecidableEq

/-- Whether `except Exception` catches this exception. -/
def PyBaseExc.isException : PyBaseExc → Bool
  | PyBaseExc.exc _ => true
  | PyBaseExc.cancelled => false

/-- Outcome of processing one claimed item (`v2.run_group_messages`). -/
inductive ItemOutcome
  | ok
  | raises (e : PyBaseExc)
  deriving DecidableEq

/-- Outcome of the one batch call (`gen_groups_embeddings`). -/
inductive BatchOutcome
  | ok
  | raises (e : PyBaseExc)
  deriving DecidableEq

/-- One database-affecting step performed by a worker pass, in order. -/
inductive DbOp
  | txnBegin
  | select (ids : List Nat)
  | setProcessing (ids : List Nat)
  | setDone (ids : List Nat)
  | setError (ids : List Nat)
  | reset (ids : List Nat)
  | txnCommit
  deriving DecidableEq

def DbOp.isReset : DbOp → Bool
  | DbOp.reset _ => true
  | _ => false

/-- Whether this operation records a terminal status for the given id. -/
def DbOp.resolves (id : Nat) : DbOp → Bool
  | DbOp.setDone ids => ids.contains id
  | DbOp.setError ids => ids.contains id
  | _ => false

/-- The id was marked done or error somewhere in the trace. -/
def resolvedIn (ops : List DbOp) (id : Nat) : Bool :=
  ops.any (DbOp.resolves id)

/-- The per-item loop of `process_chat_groups_worker` (cli/listener.py lines
116-138).  Arguments: the chats still to process and the `_processing_ids`
tracking set.  Returns the emitted operations, the final tracking set, and
the exception escaping the loop, if any.  Per item: on success,
`set_processing_done`; on an ordinary Exception, `set_processing_error`,
re-raised when `run_forever` is false; a BaseException (cancellation) is not
caught by `except Exception` and escapes at once.  The `finally` clause
removes the current id from the tracking set on every path. -/
def chatItemsLoop (runForever : Bool) (outcome : Nat → ItemOutcome) :
    List Nat → List Nat → List DbOp × List Nat × Option PyBaseExc
  | [], procIds => ([], procIds, none)
  | chatId :: rest, procIds =>
    match outcome chatId with
    | ItemOutcome.ok =>
      let r := chatItemsLoop runForever outcome rest (procIds.erase chatId)
      (DbOp.setDone [chatId] :: r.1, r.2)
    | ItemOutcome.raises e =>
      if e.isException then
        if runForever then
          let r := chatItemsLoop runForever outcome rest (procIds.erase chatId)
          (DbOp.setError [chatId] :: r.1, r.2)
        else ([DbOp.setError [chatId]], procIds.erase chatId, some e)
      else ([], procIds.erase chatId, some e)

/-- One claimed batch of `process_chat_groups_worker` (cli/listener.py lines
100-143): the claim transaction selects and marks the batch, then the
per-item loop runs; the surrounding `except Exception` block calls
`reset_processing` on the tracking set and re-raises when an ordinary
Exception escapes, while a BaseException (cancellation) bypasses it. -/
def chatWorkerPass (runForever : Bool) (claimed : List Nat)
    (outcome : Nat → ItemOutcome) : List DbOp × Option PyBaseExc :=
  let claimOps := [DbOp.txnBegin, DbOp.select claimed,
    DbOp.setProcessing claimed, DbOp.txnCommit]
  let r := chatItemsLoop runForever outcome claimed claimed
  match r.2.2 with
  | none => (claimOps ++ r.1, none)
  | some e =>
    if e.isException then (claimOps ++ r.1 ++ [DbOp.reset r.2.1], some e)
    else (claimOps ++ r.1, some e)

/-- One claimed batch of `process_embeddings_worker` (cli/listener.py lines
191-223), batch mode: on an ordinary Exception from the batch call the whole
batch is marked error and `_processing_ids` is set to None, so the outer
`except Exception` performs no reset; on success the whole batch is marked
done; a BaseException (cancellation) escapes with no status update and no
reset. -/
def embWorkerPass (runForever : Bool) (claimed : List Nat)
    (outcome : BatchOutcome) : List DbOp × Option PyBaseExc :=
  let claimOps := [DbOp.txnBegin, DbOp.select claimed,
    DbOp.setProcessing claimed, DbOp.txnCommit]
  match outcome with
  | BatchOutcome.ok => (claimOps ++ [DbOp.setDone claimed], none)
  | BatchOutcome.raises e =>
    if e.isException then
      if runForever then (claimOps ++ [DbOp.setError claimed], none)
      else (claimOps ++ [DbOp.setError claimed], some e)
    else (claimOps, some e)

/-- Insertion step of a stable sort, modelling SQL ORDER BY. -/
def insertSorted {ρ : Type} (le : ρ → ρ → Bool) (r : ρ) : List ρ → List ρ
  | [] => [r]
  | x :: xs => if le r x then r :: x :: xs else x :: insertSorted le r xs

/-- Stable insertion sort, modelling SQL ORDER BY. -/
def sortRows {ρ : Type} (le : ρ → ρ → Bool) : List ρ → List ρ
  | [] => []
  | x :: xs => insertSorted le x (sortRows le xs)

/-- The row set returned by one `SELECT ... ORDER BY ... FOR UPDATE SKIP
LOCKED LIMIT n` execution: of the eligible rows whose ids are not currently
row-locked by another transaction, the first `limit` in sort order. -/
def claimSelect {ρ : Type} (getId : ρ → Nat) (le : ρ → ρ → Bool) (elig : ρ → Bool)
    (rows : List ρ) (locked : List Nat) (limit : Nat) : List Nat :=
  (((sortRows le rows).filter
      (fun r => elig r && !(locked.contains (getId r)))).take limit).map getId

/-- One claim transaction: atomically select up to `limit` eligible unlocked
rows and take their row locks.  Returns the claimed ids and the new lock
set.  Two concurrent claims are modelled by running the second while the
first still holds its locks, which is what FOR UPDATE guarantees while both
transactions are open. -/
def claimBatch {ρ : Type} (getId : ρ → Nat) (le : ρ → ρ → Bool) (elig : ρ → Bool)
    (rows : List ρ) (locked : List Nat) (limit : Nat) : List Nat × List Nat :=
  (claimSelect getId le elig rows locked limit,
    locked ++ claimSelect getId le elig rows locked limit)

/-- WHERE clause of `_get_chats_not_grouped` (cli/listener.py lines 58-72):
`meta ->> status IS NULL OR meta ->> status NOT IN (processing, done)`, and
when `only_with_keys` the owning user must have an api key for the source. -/
def chatNotGroupedElig (onlyWithKeys : Bool) (r : ChatRow) : Bool :=
  (match metaText r.meta "status" with
   | none => true
   | some s => !(s == "processing" || s == "done"))
  && (if onlyWithKeys then r.apiKey.isSome else true)

/-- WHERE clause of `_get_groups_not_embedded` (cli/listener.py lines
151-173): `COALESCE(meta ->> embeddings_status <> processing, TRUE)` and no
embedding row yet (`cge.id IS NULL`). -/
def groupNotEmbeddedElig (r : GroupRow) : Bool :=
  (match metaText r.meta "embeddings_status" with
   | none => true
   | some s => s != "processing")
  && !r.hasEmbedding

/-- WHERE clause of `PENDING_CHAT_UPLOADS_QUERY` (cli/ingest.py lines
14-31): `processed_at IS NULL`, ordered by `created_at`. -/
def uploadPendingElig (r : UploadRow) : Bool :=
  r.processedAt.isNone

/-- `_get_chats_not_grouped` claiming against a chats table. -/
def claimChatsNotGrouped (onlyWithKeys : Bool) (rows : List ChatRow)
    (locked : List Nat) (limit : Nat) : List Nat × List Nat :=
  claimBatch ChatRow.id (fun a b => decide (a.id ≤ b.id))
    (chatNotGroupedElig onlyWithKeys) rows locked limit

/-- `_get_groups_not_embedded` claiming against a groups table. -/
def claimGroupsNotEmbedded (rows : List GroupRow) (locked : List Nat)
    (limit : Nat) : List Nat × List Nat :=
  claimBatch GroupRow.id (fun a b => decide (a.id ≤ b.id))
    groupNotEmbeddedElig rows locked limit

/-- `PENDING_CHAT_UPLOADS_QUERY` claiming against an uploads table. -/
def claimPendingUploads (rows : List UploadRow) (locked : List Nat)
    (limit : Nat) : List Nat × List Nat :=
  claimBatch UploadRow.id (fun a b => decide (a.createdAt ≤ b.createdAt))
    uploadPendingElig rows locked limit

/-- Default of the `--stuck-threshold` option in cli/run.py line 101:
minutes before a stuck chat is reset. -/
def DEFAULT_STUCK_THRESHOLD_MINUTES : Nat := 30

/-- Modelled from the spec: `process_stuck_chats_worker` is imported and
started as a task by cli/run.py (lines 16-22 and 117-118) but its definition
is not present under src/.  Per spec section 4.3, one reaper decision on one
row: a row whose status is `processing` and whose `started_at` is older than
the threshold has its status removed; any other row is left untouched. -/
def reapChatRow (now thresholdSeconds : Int) (r : ChatRow) : ChatRow :=
  if (metaText r.meta "status" == some "processing")
      && (match optGet r.meta "processing_started_at" with
          | some (JVal.time t) => decide (t < now - thresholdSeconds)
          | _ => false)
  then { r with meta := r.meta.map (fun mm => Jsonb.del mm "status") }
  else r

/-- Modelled from the spec: one periodic reaper pass scans the whole chats
table and applies the stuck-row reset row by row. -/
def reaperPass (now thresholdSeconds : Int) (table : List ChatRow) : List ChatRow :=
  table.map (reapChatRow now thresholdSeconds)

/-- A chat group eligible for embedding: the fields of the EmbeddingGroup
TypedDict (ai/embeddings.py lines 26-32) used by the batch path. -/
structure EmbGroup where
  id : Nat
  title : String
  summary : String
  messages : List String
  userId : Nat
  deriving DecidableEq

/-- `_get_embed_input_from_group` (ai/embeddings.py lines 78-79): join
title, summary and messages with spaces. -/
def getEmbedInputFromGroup (g : EmbGroup) : String :=
  " ".intercalate ([g.title, g.summary] ++ g.messages)

/-- `itertools.groupby(groups, key=user_id)`: split into maximal consecutive
runs of equal user id. -/
def pyGroupByUser : List EmbGroup → List (List EmbGroup)
  | [] => []
  | g :: rest =>
    match pyGroupByUser rest with
    | [] => [[g]]
    | [] :: runs => [g] :: [] :: runs
    | (h :: t) :: runs =>
      if g.userId == h.userId then (g :: h :: t) :: runs
      else [g] :: (h :: t) :: runs

/-- A Python exception raised inside the embedding batch path. -/
inductive PyErr
  | valueError
  | indexError
  deriving DecidableEq

/-- `mistral.fetch_embeddings` (common/models/mistral/fetch.py lines 60-91):
the HTTP reply carries one embedding per input in its data list, but the
function returns only the first entry, `data at index 0, key embedding`; an
empty data list is an IndexError.  `api` models the reply for given
inputs. -/
def mistralFetchEmbeddings (api : List String → List (List ℚ))
    (inputs : List String) : Except PyErr (List ℚ) :=
  match api inputs with
  | [] => Except.error PyErr.indexError
  | e :: _ => Except.ok e

/-- Per-user loop of `gen_groups_embeddings` (ai/embeddings.py lines
92-109), mistral branch: for each consecutive user run, fetch embeddings
for the run inputs and raise ValueError when `len(groups)` - the length of
the whole claimed batch - differs from `len(embeddings)` - the length of
the one returned vector. -/
def genGroupsEmbeddingsLoop (api : List String → List (List ℚ))
    (nbGroups : Nat) : List (List EmbGroup) → Except PyErr Unit
  | [] => Except.ok ()
  | run :: rest =>
    match mistralFetchEmbeddings api (run.map getEmbedInputFromGroup) with
    | Except.error e => Except.error e
    | Except.ok emb =>
      if nbGroups ≠ emb.length then Except.error PyErr.valueError
      else genGroupsEmbeddingsLoop api nbGroups rest

/-- `MISTRAL_MODELS` of common/models/mistral/utils.py. -/
def MISTRAL_MODELS : List String :=
  ["mistral-large-latest", "pixtral-large-latest", "mistral-medium-latest",
   "mistral-moderation-latest", "ministral-3b-latest", "ministral-8b-latest",
   "open-mistral-nemo", "mistral-small-latest", "devstral-small-latest",
   "mistral-saba-latest", "codestral-latest", "mistral-ocr-latest",
   "magistral-small-latest"]

/-- Python `s.startswith(pre)`, computed on the character lists. -/
def strStartsWith (s pre : String) : Bool :=
  pre.data.isPrefixOf s.data

/-- `is_mistral_model` (common/models/mistral/utils.py lines 23-27). -/
def is_mistral_model (modelName : String) : Bool :=
  strStartsWith modelName "mistral-" || MISTRAL_MODELS.contains modelName

/-- `gen_groups_embeddings(conn, session, groups, model_name)` (ai/
embeddings.py lines 82-109): group the batch by user, and per user run the
mistral fetch-and-save; a non-mistral source raises ValueError. -/
def gen_groups_embeddings (api : List String → List (List ℚ))
    (modelName : String) (groups : List EmbGroup) : Except PyErr Unit :=
  if is_mistral_model modelName then
    genGroupsEmbeddingsLoop api groups.length (pyGroupByUser groups)
  else Except.error PyErr.valueError

theorem Jsonb.get_del_self (m : Jsonb) (k : String) :
    Jsonb.get (Jsonb.del m k) k = none := by
  induction m with
  | nil => rfl
  | cons p rest ih =>
    by_cases h : p.1 = k
    · simpa [Jsonb.del, h] using ih
    · simpa [Jsonb.del, Jsonb.get, h] using ih

theorem Jsonb.get_del_ne (m : Jsonb) (k k' : String) (h : k' ≠ k) :
    Jsonb.get (Jsonb.del m k) k' = Jsonb.get m k' := by
  induction m with
  | nil => rfl
  | cons p rest ih =>
    have hkk' : ¬k = k' := fun hh => h hh.symm
    by_cases hp : p.1 = k
    · simpa [Jsonb.del, Jsonb.get, hp, hkk'] using ih
    · by_cases hk' : p.1 = k'
      · simp [Jsonb.del, Jsonb.get, hp, hk', h]
      · simpa [Jsonb.del, Jsonb.get, hp, hk'] using ih

theorem Jsonb.del_del (m : Jsonb) (k : String) :
    Jsonb.del (Jsonb.del m k) k = Jsonb.del m k := by
  induction m with
  | nil => rfl
  | cons p rest ih =>
    by_cases hp : p.1 = k
    · simpa [Jsonb.del, hp] using ih
    · simpa [Jsonb.del, hp] using ih

theorem Jsonb.del_of_get_none (m : Jsonb) (k : String) (h : Jsonb.get m k = none) :
    Jsonb.del m k = m := by
  induction m with
  | nil => rfl
  | cons p rest ih =>
    by_cases hp : p.1 = k
    · simp [Jsonb.get, hp] at h
    · simp [Jsonb.get, hp] at h
      simp [Jsonb.del, hp, ih h]

theorem mg_reset_ok (ids : List Nat) (table : List GroupRow) :
    MessageGroup.reset_processing ids table =
      Except.ok (table.map (MessageGroup.resetRow ids)) := rfl

theorem mg_resetRow_idem (ids : List Nat) (r : GroupRow) :
    MessageGroup.resetRow ids (MessageGroup.resetRow ids r) =
      MessageGroup.resetRow ids r := by
  obtain ⟨rid, rmeta, remb⟩ := r
  by_cases h : rid ∈ ids
  · cases rmeta with
    | none => simp [MessageGroup.resetRow, h]
    | some mm => simp [MessageGroup.resetRow, h, Jsonb.del_del]
  · simp [MessageGroup.resetRow, h]

theorem mg_resetRow_only_status (ids : List Nat) (r : GroupRow) (k : String)
    (hk : k ≠ "embeddings_status") :
    optGet (MessageGroup.resetRow ids r).meta k = optGet r.meta k ∧
      (MessageGroup.resetRow ids r).id = r.id ∧
      (MessageGroup.resetRow ids r).hasEmbedding = r.hasEmbedding := by
  obtain ⟨rid, rmeta, remb⟩ := r
  by_cases h : rid ∈ ids
  · cases rmeta with
    | none => simp [MessageGroup.resetRow, h, optGet]
    | some mm =>
      refine ⟨?_, by simp [MessageGroup.resetRow, h], by simp [MessageGroup.resetRow, h]⟩
      simpa [MessageGroup.resetRow, h, optGet] using
        Jsonb.get_del_ne mm "embeddings_status" k hk
  · simp [MessageGroup.resetRow, h]

theorem mg_resetRow_absent (ids : List Nat) (r : GroupRow)
    (h : optGet r.meta "embeddings_status" = none) :
    MessageGroup.resetRow ids r = r := by
  obtain ⟨rid, rmeta, remb⟩ := r
  by_cases hc : rid ∈ ids
  · cases rmeta with
    | none => simp [MessageGroup.resetRow, hc]
    | some mm =>
      simp [optGet] at h
      simp [MessageGroup.resetRow, hc, Jsonb.del_of_get_none mm _ h]
  · simp [MessageGroup.resetRow, hc]

/-- Claim C3: the reset operation removes only the status key from the item
metadata, leaves all other metadata untouched, and is an error-free no-op
when applied twice or to an id whose status is absent.  This holds for
`MessageGroup.reset_processing` (parts 2-5), but `DbChat.reset_processing`
is broken: its SQL ends in a stray `wo` token, so every call fails with a
syntax error (part 1, evaluated at the concrete id list `[1]`). -/
theorem claim_C3_reset_processing :
    (DbChat.reset_processing [1] [⟨1, some [("status", JVal.str "processing")], none⟩]
        = Except.error SqlError.malformedStatement)
    ∧ (∀ ids table, MessageGroup.reset_processing ids table =
        Except.ok (table.map (MessageGroup.resetRow ids)))
    ∧ (∀ ids r, MessageGroup.resetRow ids (MessageGroup.resetRow ids r) =
        MessageGroup.resetRow ids r)
    ∧ (∀ ids r k, k ≠ "embeddings_status" →
        optGet (MessageGroup.resetRow ids r).meta k = optGet r.meta k)
    ∧ (∀ ids r, optGet r.meta "embeddings_status" = none →
        MessageGroup.resetRow ids r = r) :=
  ⟨rfl, mg_reset_ok, mg_resetRow_idem,
    fun ids r k hk => (mg_resetRow_only_status ids r k hk).1, mg_resetRow_absent⟩

/-- Witness for C3: the general parts applied at a concrete group row whose
meta holds an unrelated key and a status key. -/
theorem claim_C3_reset_processing_witness :
    (("note" : String) ≠ "embeddings_status")
    ∧ optGet (MessageGroup.resetRow [7]
        ⟨7, some [("note", JVal.str "x"), ("embeddings_status", JVal.str "processing")], false⟩).meta
        "note"
      = optGet (some [("note", JVal.str "x"),
          ("embeddings_status", JVal.str "processing")] : Option Jsonb) "note" :=
  ⟨by decide,
    claim_C3_reset_processing.2.2.2.1 [7]
      ⟨7, some [("note", JVal.str "x"), ("embeddings_status", JVal.str "processing")], false⟩
      "note" (by decide)⟩

/-- Claim C9: mark-done sets status done, records a done timestamp and
removes the error timestamp and error message when present.
`MessageGroup.set_processing_done` does exactly that (last three parts),
but `DbChat.set_processing_done` deletes the key `processing_error` while
the error timestamp is stored under `processing_error_at` (written by
`set_processing_error`), so the error timestamp survives mark-done: parts
1-4 evaluate the source meta update on a chat meta carrying an error state
and show `processing_error_at` still present afterwards. -/
theorem claim_C9_set_processing_done :
    (Jsonb.get (DbChat.setProcessingDoneMeta 10
      (some [("status", JVal.str "error"), ("processing_error_at", JVal.time 5),
             ("error_message", JVal.str "boom"), ("user_note", JVal.str "keep")]))
      "status" = some (JVal.str "done"))
    ∧ (Jsonb.get (DbChat.setProcessingDoneMeta 10
      (some [("status", JVal.str "error"), ("processing_error_at", JVal.time 5),
             ("error_message", JVal.str "boom"), ("user_note", JVal.str "keep")]))
      "processing_done_at" = some (JVal.time 10))
    ∧ (Jsonb.get (DbChat.setProcessingDoneMeta 10
      (some [("status", JVal.str "error"), ("processing_error_at", JVal.time 5),
             ("error_message", JVal.str "boom"), ("user_note", JVal.str "keep")]))
      "error_message" = none)
    ∧ (Jsonb.get (DbChat.setProcessingDoneMeta 10
      (some [("status", JVal.str "error"), ("processing_error_at", JVal.time 5),
             ("error_message", JVal.str "boom"), ("user_note", JVal.str "keep")]))
      "processing_error_at" = some (JVal.time 5))
    ∧ (Jsonb.get (MessageGroup.setProcessingDoneMeta 10
      (some [("embeddings_status", JVal.str "error"), ("embeddings_error_at", JVal.time 5),
             ("embeddings_error_message", JVal.str "boom")]))
      "embeddings_error_at" = none)
    ∧ (Jsonb.get (MessageGroup.setProcessingDoneMeta 10
      (some [("embeddings_status", JVal.str "error"), ("embeddings_error_at", JVal.time 5),
             ("embeddings_error_message", JVal.str "boom")]))
      "embeddings_error_message" = none)
    ∧ (Jsonb.get (MessageGroup.setProcessingDoneMeta 10
      (some [("embeddings_status", JVal.str "error"), ("embeddings_error_at", JVal.time 5),
             ("embeddings_error_message", JVal.str "boom")]))
      "embeddings_status" = some (JVal.str "done")) := by
  decide

/-- Claim C5: with max_attempts 3, delay 1.0, backoff_factor 2.0 and jitter
False, a function failing twice retryably then succeeding should be called
3 times with sleeps 1.0 then 2.0 and return the success value.  The
common/models wrapper multiplies `current_delay` by the backoff factor
twice per retry, so it sleeps 1.0 then 4.0 (part 1); the conversations copy
sleeps 1.0 then 2.0 as claimed (part 2).  Both make 3 calls and return. -/
theorem claim_C5_retry_backoff_schedule :
    (retry_async_models 3 1 2 false (fun _ => 0) (fun _ => true)
        (fun n => if n < 3 then CallResult.raised PyExc.valueError else CallResult.success)
      = ⟨3, [1, 4], RetryOutcome.returned⟩)
    ∧ (retry_async_conversations 3 1 2 false (fun _ => 0) (fun _ => true)
        (fun n => if n < 3 then CallResult.raised PyExc.valueError else CallResult.success)
      = ⟨3, [1, 2], RetryOutcome.returned⟩) := by
  constructor <;>
    norm_num [retry_async_models, retryGoModels,
      retry_async_conversations, retryGoConversations]

/-- Claim C6: a call raising the quota-exhausted exception should abort
after exactly one call.  The gemini `fetch_completion` wrapper uses the
default exception tuple holding `Exception`, and `retry_async` has no
special case for `QuotaExceededError`, so the quota error is retried like
any other failure: 3 calls and 2 sleeps before it propagates (evaluated
with `random.random()` fixed at 1/2, making the jitter factor 1). -/
theorem claim_C6_quota_abort :
    gemini_fetch_completion_retry (fun _ => 1/2)
        (fun _ => CallResult.raised PyExc.quotaExceeded)
      = ⟨3, [1, 4], RetryOutcome.raised PyExc.quotaExceeded⟩ := by
  norm_num [gemini_fetch_completion_retry, retry_async_models, retryGoModels]

/-- Claim C7: when the wrapped call raises `TooManyRequestsError` with an
explicit retry delay, jitter is disabled and attempts remain, the wrapper
sleeps exactly that delay - not the exponential-schedule value - and
continues with `current_delay` unchanged. -/
theorem claim_C7_rate_limit_override (backoff : ℚ) (rand : Nat → ℚ)
    (retryable : PyExc → Bool) (script : Nat → CallResult)
    (fuel attempt : Nat) (currentDelay d : ℚ)
    (hr : retryable (PyExc.tooManyRequests d) = true)
    (hs : script attempt = CallResult.raised (PyExc.tooManyRequests d)) :
    retryGoModels backoff false rand retryable script (fuel + 2) attempt currentDelay
      = ⟨(retryGoModels backoff false rand retryable script
            (fuel + 1) (attempt + 1) currentDelay).calls + 1,
         d :: (retryGoModels backoff false rand retryable script
            (fuel + 1) (attempt + 1) currentDelay).sleeps,
         (retryGoModels backoff false rand retryable script
            (fuel + 1) (attempt + 1) currentDelay).outcome⟩ := by
  simp [retryGoModels, hs, hr]

/-- Witness for C7 at a concrete rate-limited first attempt with an explicit
5 second delay. -/
theorem claim_C7_rate_limit_override_witness :
    ((fun _ : PyExc => true) (PyExc.tooManyRequests 5) = true)
    ∧ ((fun n => if n = 1 then CallResult.raised (PyExc.tooManyRequests 5)
          else CallResult.success) 1 = CallResult.raised (PyExc.tooManyRequests 5))
    ∧ retryGoModels 2 false (fun _ => 0) (fun _ => true)
        (fun n => if n = 1 then CallResult.raised (PyExc.tooManyRequests 5)
          else CallResult.success) 3 1 1
      = ⟨(retryGoModels 2 false (fun _ => 0) (fun _ => true)
            (fun n => if n = 1 then CallResult.raised (PyExc.tooManyRequests 5)
              else CallResult.success) 2 2 1).calls + 1,
         5 :: (retryGoModels 2 false (fun _ => 0) (fun _ => true)
            (fun n => if n = 1 then CallResult.raised (PyExc.tooManyRequests 5)
              else CallResult.success) 2 2 1).sleeps,
         (retryGoModels 2 false (fun _ => 0) (fun _ => true)
            (fun n => if n = 1 then CallResult.raised (PyExc.tooManyRequests 5)
              else CallResult.success) 2 2 1).outcome⟩ :=
  ⟨rfl, rfl,
    claim_C7_rate_limit_override 2 (fun _ => 0) (fun _ => true)
      (fun n => if n = 1 then CallResult.raised (PyExc.tooManyRequests 5)
        else CallResult.success) 1 1 1 5 rfl rfl⟩

theorem chatItemsLoop_resolved (outcome : Nat → ItemOutcome) :
    ∀ (items : List Nat) (runForever : Bool) (procIds : List Nat) (e : PyBaseExc),
      (chatItemsLoop runForever outcome items procIds).2.2 = some e →
      e.isException = true →
      ∀ id ∈ procIds,
        resolvedIn (chatItemsLoop runForever outcome items procIds).1 id = true
          ∨ id ∈ (chatItemsLoop runForever outcome items procIds).2.1 := by
  intro items
  induction items with
  | nil =>
    intro rf procIds e he
    simp [chatItemsLoop] at he
  | cons c rest ih =>
    intro rf procIds e he hex id hid
    cases ho : outcome c with
    | ok =>
      simp only [chatItemsLoop, ho] at he ⊢
      by_cases hc : id = c
      · left
        simp [resolvedIn, DbOp.resolves, hc]
      · have := ih rf (procIds.erase c) e he hex id ((List.mem_erase_of_ne hc).2 hid)
        rcases this with h1 | h1
        · left
          simp only [resolvedIn, List.any_cons, Bool.or_eq_true]
          exact Or.inr h1
        · exact Or.inr h1
    | raises e' =>
      by_cases hee : e'.isException = true
      · cases rf with
        | true =>
          simp only [chatItemsLoop, ho, hee, if_true] at he ⊢
          by_cases hc : id = c
          · left
            simp [resolvedIn, DbOp.resolves, hc]
          · have := ih true (procIds.erase c) e he hex id
              ((List.mem_erase_of_ne hc).2 hid)
            rcases this with h1 | h1
            · left
              simp only [resolvedIn, List.any_cons, Bool.or_eq_true]
              exact Or.inr h1
            · exact Or.inr h1
        | false =>
          simp only [chatItemsLoop, ho, hee, if_true, Bool.false_eq_true,
            if_false] at he ⊢
          by_cases hc : id = c
          · left
            simp [resolvedIn, DbOp.resolves, hc]
          · exact Or.inr ((List.mem_erase_of_ne hc).2 hid)
      · have hred : chatItemsLoop rf outcome (c :: rest) procIds
            = ([], procIds.erase c, some e') := by
          simp only [chatItemsLoop, ho]
          rw [if_neg hee]
        rw [hred] at he
        simp only [Option.some.injEq] at he
        rw [← he] at hex
        exact absurd hex hee

theorem chatItemsLoop_no_reset (outcome : Nat → ItemOutcome) :
    ∀ (items : List Nat) (runForever : Bool) (procIds : List Nat),
      (chatItemsLoop runForever outcome items procIds).1.filter DbOp.isReset = [] := by
  intro items
  induction items with
  | nil => intro rf procIds; simp [chatItemsLoop]
  | cons c rest ih =>
    intro rf procIds
    cases ho : outcome c with
    | ok => simp [chatItemsLoop, ho, List.filter_cons, DbOp.isReset, ih rf]
    | raises e' =>
      by_cases hx : e'.isException = true
      · cases rf with
        | true => simp [chatItemsLoop, ho, hx, List.filter_cons, DbOp.isReset, ih true]
        | false =>
          simp [chatItemsLoop, ho, hx, List.filter_cons, DbOp.isReset]
      · simp only [chatItemsLoop, ho]
        rw [if_neg hx]
        simp

/-- Counterexample to claim C4 as stated: recovery is an `except Exception`
handler, not a `finally` block.  With one claimed chat whose processing is
interrupted by cooperative cancellation (`asyncio.CancelledError`, a
BaseException), the exception escapes the loop, the claimed id is resolved
neither to done nor to error, and no reset operation runs - for the chat
worker and the embeddings worker alike. -/
theorem claim_C4_counterexample :
    ((chatWorkerPass true [1] (fun _ => ItemOutcome.raises PyBaseExc.cancelled)).2
        = some PyBaseExc.cancelled)
    ∧ ((chatWorkerPass true [1] (fun _ => ItemOutcome.raises PyBaseExc.cancelled)).1
        = [DbOp.txnBegin, DbOp.select [1], DbOp.setProcessing [1], DbOp.txnCommit])
    ∧ (resolvedIn
        (chatWorkerPass true [1] (fun _ => ItemOutcome.raises PyBaseExc.cancelled)).1 1
        = false)
    ∧ ((embWorkerPass true [1] (BatchOutcome.raises PyBaseExc.cancelled)).2
        = some PyBaseExc.cancelled)
    ∧ ((embWorkerPass true [1] (BatchOutcome.raises PyBaseExc.cancelled)).1
        = [DbOp.txnBegin, DbOp.select [1], DbOp.setProcessing [1], DbOp.txnCommit]) := by
  decide

/-- Claim C4 (amended): the recovery block is `except Exception`, not
`finally`.  Whenever an ordinary Exception escapes the chat worker loop, the
tracking set is passed to reset as the very last operation before the
exception leaves, and every claimed id is either resolved (done/error) in
the trace or contained in that reset set; in the embeddings worker an
escaping Exception can only leave after the whole batch was marked error,
and no reset runs.  A BaseException such as cooperative cancellation
bypasses the handler in both workers: no reset operation is emitted. -/
theorem claim_C4_recovery_except_exception :
    (∀ rf claimed outcome e,
        (chatWorkerPass rf claimed outcome).2 = some e → e.isException = true →
        (chatWorkerPass rf claimed outcome).1.getLast?
            = some (DbOp.reset (chatItemsLoop rf outcome claimed claimed).2.1)
          ∧ ∀ id ∈ claimed,
              resolvedIn (chatWorkerPass rf claimed outcome).1 id = true
                ∨ id ∈ (chatItemsLoop rf outcome claimed claimed).2.1)
    ∧ (∀ rf claimed outcome,
        (chatWorkerPass rf claimed outcome).2 = some PyBaseExc.cancelled →
        (chatWorkerPass rf claimed outcome).1.filter DbOp.isReset = [])
    ∧ (∀ rf claimed bo e,
        (embWorkerPass rf claimed bo).2 = some e → e.isException = true →
        (embWorkerPass rf claimed bo).1
          = [DbOp.txnBegin, DbOp.select claimed, DbOp.setProcessing claimed,
             DbOp.txnCommit, DbOp.setError claimed])
    ∧ (∀ rf claimed bo,
        (embWorkerPass rf claimed bo).2 = some PyBaseExc.cancelled →
        (embWorkerPass rf claimed bo).1.filter DbOp.isReset = []) := by
  refine ⟨?_, ?_, ?_, ?_⟩
  · intro rf claimed outcome e he hex
    rcases hr : (chatItemsLoop rf outcome claimed claimed).2.2 with _ | e'
    · simp [chatWorkerPass, hr] at he
    · have he' : e' = e := by
        by_cases hx : e'.isException = true
        · simpa [chatWorkerPass, hr, hx] using he
        · simpa [chatWorkerPass, hr, hx] using he
      subst he'
      have hops : (chatWorkerPass rf claimed outcome).1
          = ([DbOp.txnBegin, DbOp.select claimed, DbOp.setProcessing claimed,
              DbOp.txnCommit] ++ (chatItemsLoop rf outcome claimed claimed).1)
            ++ [DbOp.reset (chatItemsLoop rf outcome claimed claimed).2.1] := by
        simp [chatWorkerPass, hr, hex]
      constructor
      · rw [hops, List.getLast?_concat]
      · intro id hid
        have h0 := chatItemsLoop_resolved outcome claimed rf claimed e' hr hex id hid
        rcases h0 with h1 | h1
        · left
          rw [hops]
          simp only [resolvedIn, List.any_append, List.any_cons, List.any_nil,
            DbOp.resolves, Bool.or_eq_true, Bool.or_false, Bool.false_or]
          simp only [resolvedIn] at h1
          exact h1
        · exact Or.inr h1
  · intro rf claimed outcome he
    rcases hr : (chatItemsLoop rf outcome claimed claimed).2.2 with _ | e'
    · simp [chatWorkerPass, hr] at he
    · have he' : e' = PyBaseExc.cancelled := by
        by_cases hx : e'.isException = true
        · simpa [chatWorkerPass, hr, hx] using he
        · simpa [chatWorkerPass, hr, hx] using he
      subst he'
      have hops : (chatWorkerPass rf claimed outcome).1
          = [DbOp.txnBegin, DbOp.select claimed, DbOp.setProcessing claimed,
              DbOp.txnCommit] ++ (chatItemsLoop rf outcome claimed claimed).1 := by
        simp [chatWorkerPass, hr, PyBaseExc.isException]
      rw [hops, List.filter_append]
      simp [DbOp.isReset, chatItemsLoop_no_reset outcome claimed rf claimed]
  · intro rf claimed bo e he hex
    cases bo with
    | ok => simp [embWorkerPass] at he
    | raises e' =>
      by_cases hx : e'.isException = true
      · cases rf with
        | false => simp [embWorkerPass, hx]
        | true => simp [embWorkerPass, hx] at he
      · have he' : e' = e := by
          simpa [embWorkerPass, hx] using he
        rw [← he'] at hex
        exact absurd hex hx
  · intro rf claimed bo he
    cases bo with
    | ok => simp [embWorkerPass] at he
    | raises e' =>
      by_cases hx : e'.isException = true
      · cases rf with
        | false =>
          have he' : e' = PyBaseExc.cancelled := by
            simpa [embWorkerPass, hx] using he
          rw [he'] at hx
          exact absurd hx (by simp [PyBaseExc.isException])
        | true => simp [embWorkerPass, hx] at he
      · simp [embWorkerPass, hx, List.filter_append, DbOp.isReset,
          List.filter_cons]

/-- Witness for the amended C4 at a concrete batch: two claimed chats, the
first failing with an ordinary Exception under run_forever false; the reset
of the remaining id 2 is the final operation. -/
theorem claim_C4_recovery_except_exception_witness :
    ((chatWorkerPass false [1, 2]
        (fun id => if id = 1 then ItemOutcome.raises (PyBaseExc.exc "boom")
          else ItemOutcome.ok)).2 = some (PyBaseExc.exc "boom"))
    ∧ ((PyBaseExc.exc "boom").isException = true)
    ∧ (chatWorkerPass false [1, 2]
        (fun id => if id = 1 then ItemOutcome.raises (PyBaseExc.exc "boom")
          else ItemOutcome.ok)).1.getLast?
        = some (DbOp.reset (chatItemsLoop false
            (fun id => if id = 1 then ItemOutcome.raises (PyBaseExc.exc "boom")
              else ItemOutcome.ok) [1, 2] [1, 2]).2.1) :=
  ⟨by decide, by decide,
    (claim_C4_recovery_except_exception.1 false [1, 2]
      (fun id => if id = 1 then ItemOutcome.raises (PyBaseExc.exc "boom")
        else ItemOutcome.ok)
      (PyBaseExc.exc "boom") (by decide) (by decide)).1⟩

theorem Jsonb.get_append_some (l1 l2 : Jsonb) (k : String) (v : JVal)
    (h : Jsonb.get l1 k = some v) : Jsonb.get (l1 ++ l2) k = some v := by
  induction l1 with
  | nil => simp [Jsonb.get] at h
  | cons p rest ih =>
    by_cases hp : p.1 = k
    · simp [Jsonb.get, hp] at h ⊢
      exact h
    · simp [Jsonb.get, hp] at h ⊢
      exact ih h

theorem Jsonb.get_append_none (l1 l2 : Jsonb) (k : String)
    (h : Jsonb.get l1 k = none) : Jsonb.get (l1 ++ l2) k = Jsonb.get l2 k := by
  induction l1 with
  | nil => rfl
  | cons p rest ih =>
    by_cases hp : p.1 = k
    · simp [Jsonb.get, hp] at h
    · simp [Jsonb.get, hp] at h ⊢
      exact ih h

theorem Jsonb.get_set_self (m : Jsonb) (k : String) (v : JVal) :
    Jsonb.get (Jsonb.set m k v) k = some v := by
  rw [Jsonb.set, Jsonb.get_append_none _ _ _ (Jsonb.get_del_self m k)]
  simp [Jsonb.get]

theorem Jsonb.get_set_ne (m : Jsonb) (k k' : String) (v : JVal) (h : k' ≠ k) :
    Jsonb.get (Jsonb.set m k v) k' = Jsonb.get m k' := by
  cases hg : Jsonb.get (Jsonb.del m k) k' with
  | some w =>
    rw [Jsonb.set, Jsonb.get_append_some _ _ _ _ hg,
      ← Jsonb.get_del_ne m k k' h, hg]
  | none =>
    rw [Jsonb.set, Jsonb.get_append_none _ _ _ hg, ← Jsonb.get_del_ne m k k' h, hg]
    have hk : ¬(k = k') := fun hh => h hh.symm
    simp [Jsonb.get, hk]

/-- Claim C8: the claim operation marks selected rows processing with a
started_at timestamp inside the same transaction as the locking selection,
before the claim returns (part 1: in every chat worker pass the trace
begins txnBegin, select, setProcessing, txnCommit, whatever follows);
and a claimed item always has started_at set before it transitions to done
or error (part 2: `set_is_processing` writes `processing_started_at`;
parts 3-4: the done and error updates leave `processing_started_at`
untouched). -/
theorem claim_C8_started_at_before_terminal :
    (∀ rf claimed outcome, ∃ rest,
        (chatWorkerPass rf claimed outcome).1
          = DbOp.txnBegin :: DbOp.select claimed :: DbOp.setProcessing claimed
              :: DbOp.txnCommit :: rest)
    ∧ (∀ (now : Int) (m : Option Jsonb),
        Jsonb.get (DbChat.setIsProcessingMeta now m) "processing_started_at"
            = some (JVal.time now)
          ∧ Jsonb.get (DbChat.setIsProcessingMeta now m) "status"
            = some (JVal.str "processing"))
    ∧ (∀ (now : Int) (m : Option Jsonb),
        Jsonb.get (DbChat.setProcessingDoneMeta now m) "processing_started_at"
          = Jsonb.get (coalesceMeta m) "processing_started_at")
    ∧ (∀ (now : Int) (msg : Option String) (m : Option Jsonb),
        Jsonb.get (DbChat.setProcessingErrorMeta now msg m) "processing_started_at"
          = Jsonb.get (coalesceMeta m) "processing_started_at") := by
  refine ⟨?_, ?_, ?_, ?_⟩
  · intro rf claimed outcome
    rcases hr : (chatItemsLoop rf outcome claimed claimed).2.2 with _ | e
    · exact ⟨(chatItemsLoop rf outcome claimed claimed).1,
        by simp [chatWorkerPass, hr]⟩
    · by_cases hx : e.isException = true
      · exact ⟨(chatItemsLoop rf outcome claimed claimed).1
            ++ [DbOp.reset (chatItemsLoop rf outcome claimed claimed).2.1],
          by simp [chatWorkerPass, hr, hx]⟩
      · exact ⟨(chatItemsLoop rf outcome claimed claimed).1,
          by simp [chatWorkerPass, hr, hx]⟩
  · intro now m
    constructor
    · show Jsonb.get (Jsonb.set (Jsonb.set (coalesceMeta m)
        "processing_started_at" (JVal.time now)) "status" (JVal.str "processing"))
        "processing_started_at" = some (JVal.time now)
      rw [Jsonb.get_set_ne _ _ _ _ (by decide), Jsonb.get_set_self]
    · show Jsonb.get (Jsonb.set (Jsonb.set (coalesceMeta m)
        "processing_started_at" (JVal.time now)) "status" (JVal.str "processing"))
        "status" = some (JVal.str "processing")
      rw [Jsonb.get_set_self]
  · intro now m
    show Jsonb.get (Jsonb.del (Jsonb.del (Jsonb.set (Jsonb.set (coalesceMeta m)
        "processing_done_at" (JVal.time now)) "status" (JVal.str "done"))
        "processing_error") "error_message") "processing_started_at"
      = Jsonb.get (coalesceMeta m) "processing_started_at"
    rw [Jsonb.get_del_ne _ _ _ (by decide), Jsonb.get_del_ne _ _ _ (by decide),
      Jsonb.get_set_ne _ _ _ _ (by decide), Jsonb.get_set_ne _ _ _ _ (by decide)]
  · intro now msg m
    show Jsonb.get (Jsonb.set (Jsonb.set (Jsonb.set (coalesceMeta m)
        "processing_error_at" (JVal.time now)) "status" (JVal.str "error"))
        "error_message" (match msg with | some s => JVal.str s | none => JVal.null))
        "processing_started_at" = Jsonb.get (coalesceMeta m) "processing_started_at"
    rw [Jsonb.get_set_ne _ _ _ _ (by decide), Jsonb.get_set_ne _ _ _ _ (by decide),
      Jsonb.get_set_ne _ _ _ _ (by decide)]

/-- Witness for C8 at a concrete pass and a concrete NULL meta blob. -/
theorem claim_C8_started_at_before_terminal_witness :
    Jsonb.get (DbChat.setIsProcessingMeta 3 none) "processing_started_at"
        = some (JVal.time 3)
      ∧ Jsonb.get (DbChat.setProcessingDoneMeta 9
          (some (DbChat.setIsProcessingMeta 3 none))) "processing_started_at"
        = some (JVal.time 3) :=
  ⟨(claim_C8_started_at_before_terminal.2.1 3 none).1,
    by
      rw [claim_C8_started_at_before_terminal.2.2.1 9
        (some (DbChat.setIsProcessingMeta 3 none))]
      exact (claim_C8_started_at_before_terminal.2.1 3 none).1⟩

theorem claimSelect_not_locked {ρ : Type} (getId : ρ → Nat) (le : ρ → ρ → Bool)
    (elig : ρ → Bool) (rows : List ρ) (locked : List Nat) (limit : Nat) (x : Nat)
    (hx : x ∈ claimSelect getId le elig rows locked limit) :
    x ∉ locked := by
  rcases List.mem_map.1 hx with ⟨r, hr, hkey⟩
  have hr' := List.mem_of_mem_take hr
  have hf := (List.mem_filter.1 hr').2
  rw [Bool.and_eq_true] at hf
  rw [← hkey]
  intro hmem
  have : locked.contains (getId r) = true := by simpa using hmem
  rw [this] at hf
  simp at hf

theorem claimBatch_disjoint {ρ σ : Type} (getId : ρ → Nat) (getId2 : σ → Nat)
    (le : ρ → ρ → Bool) (le2 : σ → σ → Bool) (elig : ρ → Bool) (elig2 : σ → Bool)
    (rows : List ρ) (rows2 : List σ) (locked : List Nat) (lim1 lim2 : Nat) (x : Nat)
    (h1 : x ∈ (claimBatch getId le elig rows locked lim1).1) :
    x ∉ (claimBatch getId2 le2 elig2 rows2
        (claimBatch getId le elig rows locked lim1).2 lim2).1 := by
  intro h2
  have hnl := claimSelect_not_locked getId2 le2 elig2 rows2
    (claimBatch getId le elig rows locked lim1).2 lim2 x h2
  exact hnl (List.mem_append.2 (Or.inr h1))

/-- Claim C1: for any two claim calls run concurrently against the same
pending set - chats not grouped, groups not embedded, or pending uploads -
the returned id sets are disjoint: every row goes to exactly one caller or
to none.  The second call runs while the first transaction still holds its
row locks; SKIP LOCKED makes it skip exactly those rows. -/
theorem claim_C1_skip_locked_disjoint :
    (∀ owk rows rows2 locked lim1 lim2 x,
        x ∈ (claimChatsNotGrouped owk rows locked lim1).1 →
        x ∉ (claimChatsNotGrouped owk rows2
            (claimChatsNotGrouped owk rows locked lim1).2 lim2).1)
    ∧ (∀ rows rows2 locked lim1 lim2 x,
        x ∈ (claimGroupsNotEmbedded rows locked lim1).1 →
        x ∉ (claimGroupsNotEmbedded rows2
            (claimGroupsNotEmbedded rows locked lim1).2 lim2).1)
    ∧ (∀ rows rows2 locked lim1 lim2 x,
        x ∈ (claimPendingUploads rows locked lim1).1 →
        x ∉ (claimPendingUploads rows2
            (claimPendingUploads rows locked lim1).2 lim2).1) :=
  ⟨fun _owk rows rows2 locked lim1 lim2 x h1 =>
      claimBatch_disjoint ChatRow.id ChatRow.id _ _ _ _ rows rows2 locked lim1 lim2 x h1,
    fun rows rows2 locked lim1 lim2 x h1 =>
      claimBatch_disjoint GroupRow.id GroupRow.id _ _ _ _ rows rows2 locked lim1 lim2 x h1,
    fun rows rows2 locked lim1 lim2 x h1 =>
      claimBatch_disjoint UploadRow.id UploadRow.id _ _ _ _ rows rows2 locked lim1 lim2 x h1⟩

/-- Witness for C1: two pending chats, the first caller claims one, the
second caller (seeing the same table, first locks still held) cannot get
it. -/
theorem claim_C1_skip_locked_disjoint_witness :
    (1 ∈ (claimChatsNotGrouped false [⟨1, none, none⟩, ⟨2, none, none⟩] [] 1).1)
    ∧ (1 ∉ (claimChatsNotGrouped false [⟨1, none, none⟩, ⟨2, none, none⟩]
        (claimChatsNotGrouped false [⟨1, none, none⟩, ⟨2, none, none⟩] [] 1).2 2).1) :=
  ⟨by decide,
    claim_C1_skip_locked_disjoint.1 false
      [⟨1, none, none⟩, ⟨2, none, none⟩] [⟨1, none, none⟩, ⟨2, none, none⟩]
      [] 1 2 1 (by decide)⟩

/-- Claim C2: a separate periodic reaper pass resets any item in status
processing whose started_at is older than the configurable threshold
(default 30 minutes), and leaves newer items untouched.  Part 1: a pass is
the row map; part 2: a processing row started at `now - threshold - 1` has
its status removed; part 3: a row started at `now - threshold + 1` is left
exactly as it was. -/
theorem claim_C2_reaper_threshold :
    (DEFAULT_STUCK_THRESHOLD_MINUTES = 30
      ∧ ∀ now thr table, reaperPass now thr table = table.map (reapChatRow now thr))
    ∧ (∀ (now thr : Int) (r : ChatRow),
        metaText r.meta "status" = some "processing" →
        optGet r.meta "processing_started_at" = some (JVal.time (now - thr - 1)) →
        metaText (reapChatRow now thr r).meta "status" = none)
    ∧ (∀ (now thr : Int) (r : ChatRow),
        optGet r.meta "processing_started_at" = some (JVal.time (now - thr + 1)) →
        reapChatRow now thr r = r) := by
  refine ⟨⟨rfl, fun _ _ _ => rfl⟩, ?_, ?_⟩
  · intro now thr r hst hts
    have hcond : ((metaText r.meta "status" == some "processing")
        && (match optGet r.meta "processing_started_at" with
            | some (JVal.time t) => decide (t < now - thr)
            | _ => false)) = true := by
      rw [hst, hts]
      simp
    rw [reapChatRow, if_pos hcond]
    cases hm : r.meta with
    | none => rw [hm] at hst; simp [metaText] at hst
    | some mm =>
      simp only [hm, Option.map_some]
      simp [metaText, Jsonb.get_del_self]
  · intro now thr r hts
    have hcond : ((metaText r.meta "status" == some "processing")
        && (match optGet r.meta "processing_started_at" with
            | some (JVal.time t) => decide (t < now - thr)
            | _ => false)) = false := by
      rw [hts]
      simp
    rw [reapChatRow, if_neg (by simp [hcond])]

/-- Witness for C2 on a concrete stuck row and a concrete fresh row, with
the default threshold of 30 minutes in seconds and now = 1801. -/
theorem claim_C2_reaper_threshold_witness :
    (metaText (some [("status", JVal.str "processing"),
        ("processing_started_at", JVal.time 0)] : Option Jsonb) "status"
      = some "processing")
    ∧ (metaText (reapChatRow 1801 1800
        ⟨1, some [("status", JVal.str "processing"),
          ("processing_started_at", JVal.time 0)], none⟩).meta "status" = none)
    ∧ (reapChatRow 1801 1800
        ⟨2, some [("status", JVal.str "processing"),
          ("processing_started_at", JVal.time 2)], none⟩
      = ⟨2, some [("status", JVal.str "processing"),
          ("processing_started_at", JVal.time 2)], none⟩) :=
  ⟨by decide,
    claim_C2_reaper_threshold.2.1 1801 1800
      ⟨1, some [("status", JVal.str "processing"),
        ("processing_started_at", JVal.time 0)], none⟩
      (by decide) (by decide),
    claim_C2_reaper_threshold.2.2 1801 1800
      ⟨2, some [("status", JVal.str "processing"),
        ("processing_started_at", JVal.time 2)], none⟩
      (by decide)⟩

theorem pyGroupByUser_const (u : Nat) :
    ∀ (rest : List EmbGroup) (g : EmbGroup),
      g.userId = u → (∀ x ∈ rest, x.userId = u) →
      pyGroupByUser (g :: rest) = [g :: rest] := by
  intro rest
  induction rest with
  | nil => intro g _ _; rfl
  | cons h t ih =>
    intro g hg hrest
    have hh : h.userId = u := hrest h (by simp)
    have htail := ih h hh (fun x hx => hrest x (by simp [hx]))
    show (match pyGroupByUser (h :: t) with
      | [] => [[g]]
      | [] :: runs => [g] :: [] :: runs
      | (h' :: t') :: runs =>
        if g.userId == h'.userId then (g :: h' :: t') :: runs
        else [g] :: (h' :: t') :: runs) = [g :: h :: t]
    rw [htail]
    simp [hg, hh]

/-- Claim C10: a claimed batch of two or more groups of one user handed to
`gen_groups_embeddings` with the mistral source raises ValueError exactly
when the batch size differs from the length of the single (first) embedding
vector the mistral fetch returns, since that fetch returns one vector, not
one per input; a multi-group batch avoids the error only when its size
equals the embedding dimension. -/
theorem claim_C10_batch_embedding_mismatch
    (api : List String → List (List ℚ)) (g : EmbGroup) (rest : List EmbGroup)
    (u : Nat) (e0 : List ℚ) (etl : List (List ℚ))
    (_hlen : 2 ≤ (g :: rest).length)
    (hg : g.userId = u) (hrest : ∀ x ∈ rest, x.userId = u)
    (hapi : api ((g :: rest).map getEmbedInputFromGroup) = e0 :: etl) :
    gen_groups_embeddings api "mistral-embed" (g :: rest)
      = (if (g :: rest).length ≠ e0.length then Except.error PyErr.valueError
          else Except.ok ()) := by
  have hsrc : is_mistral_model "mistral-embed" = true := by decide
  rw [gen_groups_embeddings, if_pos hsrc, pyGroupByUser_const u rest g hg hrest]
  simp only [genGroupsEmbeddingsLoop, mistralFetchEmbeddings, hapi]

/-- Witness for C10: two groups of user 7, the reply carrying one
3-dimensional vector; the batch errors because 2 differs from 3. -/
theorem claim_C10_batch_embedding_mismatch_witness :
    gen_groups_embeddings (fun _ => [[0, 0, 0]]) "mistral-embed"
        [⟨1, "t1", "s1", [], 7⟩, ⟨2, "t2", "s2", [], 7⟩]
      = Except.error PyErr.valueError := by
  rw [claim_C10_batch_embedding_mismatch (fun _ => [[0, 0, 0]])
    ⟨1, "t1", "s1", [], 7⟩ [⟨2, "t2", "s2", [], 7⟩] 7 [0, 0, 0] []
    (by decide) (by decide) (by decide) rfl]
  rfl

end Polarsen
